import Mathlib

/-!
Shallow embedding of the rss_crawler repository: the SQLite-backed feed
store (src/database.py), the feed fetcher's entry normalization and the
Telegram message formatter (src/rss_crawler.py), and one pass of the
periodic dedup-and-delivery loop (src/bot.py, check_feeds_periodically),
with theorems checking the specification's claims about them.

Timestamps are modelled as `Nat`; the network fetch and the channel sink
are oracles passed to the engine; BeautifulSoup's markup stripping and
`datetime.now()` are parameters of the fetcher.
-/

/-- A row of the `rss_feeds` table (database.py, `init_db`):
`id INTEGER PRIMARY KEY AUTOINCREMENT, url TEXT UNIQUE NOT NULL,
name TEXT NOT NULL, last_check TIMESTAMP`. -/
structure FeedRow where
  id : Nat
  url : String
  name : String
  last_check : Option Nat
deriving DecidableEq

/-- A row of the `sent_posts` table (database.py, `init_db`): `feed_id
INTEGER`, `post_url TEXT UNIQUE NOT NULL`, `sent_at TIMESTAMP DEFAULT
CURRENT_TIMESTAMP`. The autoincrement `id` column is never read by any
query of the repository, so it is not modelled. -/
structure SentPostRow where
  feed_id : Nat
  post_url : String
  sent_at : Nat
deriving DecidableEq

/-- The database state: both tables in rowid (insertion) order, plus the
next AUTOINCREMENT id the `rss_feeds` table will hand out. -/
structure DB where
  feeds : List FeedRow
  sent_posts : List SentPostRow
  next_feed_id : Nat
deriving DecidableEq

/-- database.py `init_db`: both tables start empty; SQLite AUTOINCREMENT
hands out ids starting from 1. -/
def init_db : DB := { feeds := [], sent_posts := [], next_feed_id := 1 }

/-- database.py `add_feed`: `INSERT OR IGNORE INTO rss_feeds (url, name)`.
`url` is UNIQUE, so the insert is ignored when a row with that url already
exists; otherwise a fresh row is appended with a fresh id and NULL
`last_check`. -/
def add_feed (db : DB) (url name : String) : DB :=
  if db.feeds.any (fun f => f.url = url) then db
  else { db with
          feeds := db.feeds ++ [⟨db.next_feed_id, url, name, none⟩],
          next_feed_id := db.next_feed_id + 1 }

/-- database.py `get_all_feeds`: `SELECT * FROM rss_feeds`, rowid order. -/
def get_all_feeds (db : DB) : List FeedRow := db.feeds

/-- database.py `update_feed_check_time`: `UPDATE rss_feeds SET last_check
= CURRENT_TIMESTAMP WHERE id = ?`; a silent no-op when no row has that
id. -/
def update_feed_check_time (db : DB) (feed_id : Nat) (now : Nat) : DB :=
  { db with feeds := db.feeds.map (fun f =>
      if f.id = feed_id then { f with last_check := some now } else f) }

/-- database.py `is_post_sent`: `SELECT 1 FROM sent_posts WHERE post_url =
?` returned a row. -/
def is_post_sent (db : DB) (post_url : String) : Bool :=
  db.sent_posts.any (fun sp => sp.post_url = post_url)

/-- database.py `mark_post_sent`: `INSERT INTO sent_posts (feed_id,
post_url) VALUES (?, ?)`. `post_url` is UNIQUE and the insert is not OR
IGNORE, so inserting a url already present raises an IntegrityError,
modelled as `none`. -/
def mark_post_sent (db : DB) (feed_id : Nat) (post_url : String) (now : Nat) :
    Option DB :=
  if is_post_sent db post_url then none
  else some { db with sent_posts := db.sent_posts ++ [⟨feed_id, post_url, now⟩] }

/-- database.py `remove_feed`: look the feed's id up by url (`fetchone`:
the first matching row); if absent return `false`; otherwise delete the
matching `sent_posts` rows, then the feed row, commit once (one atomic
unit) and return `true`. -/
def remove_feed (db : DB) (url : String) : DB × Bool :=
  match db.feeds.find? (fun f => f.url = url) with
  | none => (db, false)
  | some f =>
    ({ db with
        feeds := db.feeds.filter (fun g => g.id ≠ f.id),
        sent_posts := db.sent_posts.filter (fun sp => sp.feed_id ≠ f.id) },
     true)

/-- The canonical post dict built by rss_crawler.py `fetch_feed`. -/
structure Post where
  title : String
  link : String
  description : String
  published : String
  tags : List String
deriving DecidableEq

/-- A feedparser entry as rss_crawler.py `fetch_feed` reads it: every
field access is guarded (`'tags' in entry`, `entry.get(...)`), so each
field is optional. An element of `tags` is a tag dict whose `term` key may
itself be absent (`tag.get('term', '')`). -/
structure FeedEntry where
  title : Option String
  link : Option String
  description : Option String
  published : Option String
  tags : Option (List (Option String))
  categories : Option (List String)
deriving DecidableEq

/-- The per-entry body of rss_crawler.py `fetch_feed` (lines 31-53): tag
extraction (`tags` key first, `categories` otherwise), the post dict with
its `entry.get` defaults, empty-tag filtering, and the description
cleanup. `now` stands for `datetime.now().isoformat()` and `get_text` for
`BeautifulSoup(..., 'html.parser').get_text()`, both external effects. -/
def fetch_feed_entry (now : String) (get_text : String → String)
    (e : FeedEntry) : Post :=
  let tags : List String :=
    match e.tags with
    | some ts => ts.map (fun t : Option String => t.getD "")
    | none =>
      match e.categories with
      | some cs => cs
      | none => []
  let post : Post :=
    { title := e.title.getD "No title"
      link := e.link.getD ""
      description := e.description.getD ""
      published := e.published.getD now
      tags := tags.filter (fun t => t ≠ "") }
  if post.description ≠ "" then
    let txt := get_text post.description
    { post with
        description := if txt.length > 500 then txt.take 500 ++ "..." else txt }
  else post

/-- rss_crawler.py `fetch_feed`, success path: normalize every entry in
feed order and keep the first 10 (`posts[:10]`). Fetch or parse failure is
the `none` of the engine's fetch oracle. -/
def fetch_feed (now : String) (get_text : String → String)
    (entries : List FeedEntry) : List Post :=
  (entries.map (fetch_feed_entry now get_text)).take 10

/-- Python single-character `str.replace`: every occurrence of the
character `c` is replaced by the string `r`. -/
def replace_char (c : Char) (r : List Char) : List Char → List Char
  | [] => []
  | x :: xs => (if x = c then r else [x]) ++ replace_char c r xs

/-- The escaping rss_crawler.py `format_telegram_message` applies to title
and description:
`.replace('&', '&amp;').replace('<', '&lt;').replace('>', '&gt;')`. -/
def escape_html (s : String) : String :=
  ⟨replace_char '>' "&gt;".data
    (replace_char '<' "&lt;".data
      (replace_char '&' "&amp;".data s.data))⟩

/-- The escaping applied to the link: `.replace('"', '&quot;')`. -/
def escape_quotes (s : String) : String :=
  ⟨replace_char '"' "&quot;".data s.data⟩

/-- rss_crawler.py `format_telegram_message`: escaped title, link line
with quote-escaped url, escaped description, italic feed attribution.
`feed_name` is interpolated without any escaping. -/
def format_telegram_message (post : Post) (feed_name : String) : String :=
  escape_html post.title ++ "\n\n<a href=\"" ++ escape_quotes post.link ++
    "\">🔗 Link</a>\n\n" ++ escape_html post.description ++
    "\n\n<i>Feed: " ++ feed_name ++ "</i>\n"

/-- Observable actions of one pass of bot.py `check_feeds_periodically`. -/
inductive Event where
  | delivered (url : String)
  | delivery_failed (url : String)
  | skipped (url : String)
  | paused (seconds : Nat)
  | checked (feed_id : Nat)
  | mark_dup (url : String)
deriving DecidableEq

/-- The per-post body of `check_feeds_periodically` (bot.py lines
156-170): skip a link `is_post_sent` reports sent; otherwise format and
send (the sink's outcome is the oracle `send_ok`); on success
`mark_post_sent` and `asyncio.sleep(2)`; any exception from send or mark
is caught by the inner `except`, logged, and the loop moves to the next
post — no mark, no sleep. `mark_dup` records a `mark_post_sent` call that
hit the UNIQUE constraint. -/
def deliver_post (send_ok : Post → Bool) (feed_id : Nat) (now : Nat)
    (db : DB) (post : Post) : DB × List Event :=
  if is_post_sent db post.link then
    (db, [.skipped post.link])
  else if send_ok post then
    match mark_post_sent db feed_id post.link now with
    | some db' => (db', [.delivered post.link, .paused 2])
    | none => (db, [.delivery_failed post.link, .mark_dup post.link])
  else
    (db, [.delivery_failed post.link])

/-- The per-post loop of `check_feeds_periodically` over one feed's fetched
posts, in feed order. -/
def deliver_posts (send_ok : Post → Bool) (feed_id : Nat) (now : Nat) :
    DB → List Post → DB × List Event
  | db, [] => (db, [])
  | db, p :: ps =>
    let step := deliver_post send_ok feed_id now db p
    let rest := deliver_posts send_ok feed_id now step.1 ps
    (rest.1, step.2 ++ rest.2)

/-- The per-feed body of `check_feeds_periodically` (bot.py lines
152-172): fetch the feed (`fetch` is the oracle; `none` is a failed
fetch); `if not posts: continue` skips both a failed fetch and an empty
post list; otherwise run the per-post loop and then
`update_feed_check_time`. -/
def process_feed (fetch : String → Option (List Post))
    (send_ok : Post → Bool) (now : Nat) (db : DB) (feed : FeedRow) :
    DB × List Event :=
  match fetch feed.url with
  | none => (db, [])
  | some [] => (db, [])
  | some posts =>
    let step := deliver_posts send_ok feed.id now db posts
    (update_feed_check_time step.1 feed.id now, step.2 ++ [.checked feed.id])

/-- The feed loop of one pass of `check_feeds_periodically`. -/
def process_feeds (fetch : String → Option (List Post))
    (send_ok : Post → Bool) (now : Nat) :
    DB → List FeedRow → DB × List Event
  | db, [] => (db, [])
  | db, f :: fs =>
    let step := process_feed fetch send_ok now db f
    let rest := process_feeds fetch send_ok now step.1 fs
    (rest.1, step.2 ++ rest.2)

/-- One pass of `check_feeds_periodically`'s while-body (bot.py lines
150-173): snapshot the feed list, then process each feed in order. -/
def run_cycle (fetch : String → Option (List Post)) (send_ok : Post → Bool)
    (now : Nat) (db : DB) : DB × List Event :=
  process_feeds fetch send_ok now db (get_all_feeds db)

/-- Interleavings of engine cycles with the command surface's store
mutations (bot.py `add_feed_command_handler`, `remove_feed_handler`). -/
inductive StoreOp where
  | cycle (fetch : String → Option (List Post)) (send_ok : Post → Bool) (now : Nat)
  | add (url name : String)
  | remove (url : String)

/-- Apply one operation to the store. -/
def apply_op (db : DB) : StoreOp → DB
  | .cycle fetch send_ok now => (run_cycle fetch send_ok now db).1
  | .add url name => add_feed db url name
  | .remove url => (remove_feed db url).1

/-- Run a sequence of engine cycles and store operations. -/
def run_ops (db : DB) (ops : List StoreOp) : DB := ops.foldl apply_op db

/-- The idempotence-ledger invariant: `post_url` is globally unique across
all `sent_posts` rows. -/
def SentUniq (db : DB) : Prop :=
  (db.sent_posts.map (fun sp => sp.post_url)).Nodup

/-! ### Evaluation and frame lemmas for the per-post step -/

/-- `deliver_post`, evaluated: the `mark_post_sent` branch always succeeds
because it runs under the `is_post_sent` guard of the same pass. -/
theorem deliver_post_eq (send_ok : Post → Bool) (feed_id now : Nat) (db : DB)
    (p : Post) :
    deliver_post send_ok feed_id now db p =
      if is_post_sent db p.link then (db, [.skipped p.link])
      else if send_ok p then
        ({ db with sent_posts := db.sent_posts ++ [⟨feed_id, p.link, now⟩] },
         [.delivered p.link, .paused 2])
      else (db, [.delivery_failed p.link]) := by
  unfold deliver_post mark_post_sent
  by_cases h : is_post_sent db p.link <;> simp [h]

theorem deliver_post_feeds (send_ok : Post → Bool) (feed_id now : Nat)
    (db : DB) (p : Post) :
    (deliver_post send_ok feed_id now db p).1.feeds = db.feeds := by
  rw [deliver_post_eq]; split_ifs <;> rfl

theorem deliver_posts_feeds (send_ok : Post → Bool) (feed_id now : Nat)
    (db : DB) (ps : List Post) :
    (deliver_posts send_ok feed_id now db ps).1.feeds = db.feeds := by
  induction ps generalizing db with
  | nil => rfl
  | cons p ps ih =>
    simp only [deliver_posts]
    rw [ih, deliver_post_feeds]

theorem sent_mono_deliver_post {db : DB} {u : String}
    (h : is_post_sent db u = true) (send_ok : Post → Bool)
    (feed_id now : Nat) (p : Post) :
    is_post_sent (deliver_post send_ok feed_id now db p).1 u = true := by
  rw [deliver_post_eq]
  split_ifs <;> simp_all [is_post_sent, List.any_append]

theorem sent_after_deliver_post {send_ok : Post → Bool} {feed_id now : Nat}
    {db : DB} {p : Post} {u : String}
    (h : is_post_sent (deliver_post send_ok feed_id now db p).1 u = true) :
    is_post_sent db u = true ∨ u = p.link := by
  rw [deliver_post_eq] at h
  split_ifs at h with h1 h2
  · exact Or.inl h
  · simp only [is_post_sent, List.any_append, List.any_cons, List.any_nil,
      Bool.or_false, Bool.or_eq_true, decide_eq_true_eq] at h
    rcases h with h | h
    · exact Or.inl h
    · exact Or.inr h.symm
  · exact Or.inl h

theorem sent_marked_deliver_post {send_ok : Post → Bool} {p : Post}
    (hok : send_ok p = true) (feed_id now : Nat) (db : DB) :
    is_post_sent (deliver_post send_ok feed_id now db p).1 p.link = true := by
  rw [deliver_post_eq]
  split_ifs with h1
  · exact h1
  · simp [is_post_sent, List.any_append]

theorem sent_not_marked_deliver_post {send_ok : Post → Bool} {db : DB}
    {p : Post} {u : String} (h : is_post_sent db u = false)
    (hp : p.link = u → send_ok p = false) (feed_id now : Nat) :
    is_post_sent (deliver_post send_ok feed_id now db p).1 u = false := by
  rw [deliver_post_eq]
  split_ifs with h1 h2
  · exact h
  · by_cases hl : p.link = u
    · rw [hp hl] at h2; exact absurd h2 (by simp)
    · simp only [is_post_sent, List.any_append, List.any_cons, List.any_nil,
        Bool.or_false] at h ⊢
      simp [h, hl]
  · exact h

theorem deliver_post_events (send_ok : Post → Bool) (feed_id now : Nat)
    (db : DB) (p : Post) :
    (deliver_post send_ok feed_id now db p).2 =
      if is_post_sent db p.link then [.skipped p.link]
      else if send_ok p then [.delivered p.link, .paused 2]
      else [.delivery_failed p.link] := by
  rw [deliver_post_eq]; split_ifs <;> rfl

theorem mark_dup_not_in_deliver_post (send_ok : Post → Bool)
    (feed_id now : Nat) (db : DB) (p : Post) (u : String) :
    Event.mark_dup u ∉ (deliver_post send_ok feed_id now db p).2 := by
  rw [deliver_post_events]; split_ifs <;> simp

theorem delivered_not_in_deliver_post {db : DB} {u : String}
    (h : is_post_sent db u = true) (send_ok : Post → Bool)
    (feed_id now : Nat) (p : Post) :
    Event.delivered u ∉ (deliver_post send_ok feed_id now db p).2 := by
  rw [deliver_post_events]
  split_ifs with h1 h2
  · intro hmem
    simp only [List.mem_singleton] at hmem
    exact Event.noConfusion hmem
  · intro hmem
    simp only [List.mem_cons, List.not_mem_nil, or_false] at hmem
    rcases hmem with h' | h'
    · have hu : u = p.link := by injection h'
      exact h1 (hu ▸ h)
    · exact Event.noConfusion h'
  · intro hmem
    simp only [List.mem_singleton] at hmem
    exact Event.noConfusion hmem

theorem sent_uniq_deliver_post {db : DB} (h : SentUniq db)
    (send_ok : Post → Bool) (feed_id now : Nat) (p : Post) :
    SentUniq (deliver_post send_ok feed_id now db p).1 := by
  rw [deliver_post_eq]
  split_ifs with h1 h2
  · exact h
  · have hnot : p.link ∉ db.sent_posts.map (fun sp => sp.post_url) := by
      simp only [is_post_sent, List.any_eq_true, decide_eq_true_eq] at h1
      simpa [List.mem_map] using h1
    simp only [SentUniq, List.map_append, List.map_cons, List.map_nil]
    rw [List.nodup_append]
    refine ⟨h, List.nodup_singleton _, ?_⟩
    intro a ha ha'
    simp only [List.mem_singleton] at ha'
    exact hnot (ha' ▸ ha)
  · exact h

/-! ### Lifts to the per-feed and per-cycle loops -/

theorem sent_mono_deliver_posts (send_ok : Post → Bool) (feed_id now : Nat)
    {u : String} :
    ∀ (ps : List Post) (db : DB), is_post_sent db u = true →
      is_post_sent (deliver_posts send_ok feed_id now db ps).1 u = true := by
  intro ps
  induction ps with
  | nil => intro db h; exact h
  | cons p ps ih =>
    intro db h
    exact ih _ (sent_mono_deliver_post h send_ok feed_id now p)

theorem sent_marked_deliver_posts (send_ok : Post → Bool) (feed_id now : Nat)
    {Q : Post} (hok : send_ok Q = true) :
    ∀ (ps : List Post) (db : DB), Q ∈ ps →
      is_post_sent (deliver_posts send_ok feed_id now db ps).1 Q.link = true := by
  intro ps
  induction ps with
  | nil => intro db h; cases h
  | cons p ps ih =>
    intro db hQ
    rcases List.mem_cons.mp hQ with heq | hmem
    · subst heq
      exact sent_mono_deliver_posts send_ok feed_id now ps _
        (sent_marked_deliver_post hok feed_id now db)
    · exact ih _ hmem

theorem sent_not_marked_deliver_posts (send_ok : Post → Bool)
    (feed_id now : Nat) {u : String} :
    ∀ (ps : List Post) (db : DB), is_post_sent db u = false →
      (∀ p ∈ ps, p.link = u → send_ok p = false) →
      is_post_sent (deliver_posts send_ok feed_id now db ps).1 u = false := by
  intro ps
  induction ps with
  | nil => intro db h _; exact h
  | cons p ps ih =>
    intro db h hall
    exact ih _
      (sent_not_marked_deliver_post h (hall p (List.mem_cons_self p ps)) feed_id now)
      (fun q hq => hall q (List.mem_cons_of_mem p hq))

theorem sent_uniq_deliver_posts (send_ok : Post → Bool) (feed_id now : Nat) :
    ∀ (ps : List Post) (db : DB), SentUniq db →
      SentUniq (deliver_posts send_ok feed_id now db ps).1 := by
  intro ps
  induction ps with
  | nil => intro db h; exact h
  | cons p ps ih =>
    intro db h
    exact ih _ (sent_uniq_deliver_post h send_ok feed_id now p)

theorem mark_dup_not_in_deliver_posts (send_ok : Post → Bool)
    (feed_id now : Nat) (u : String) :
    ∀ (ps : List Post) (db : DB),
      Event.mark_dup u ∉ (deliver_posts send_ok feed_id now db ps).2 := by
  intro ps
  induction ps with
  | nil => intro db hmem; simp [deliver_posts] at hmem
  | cons p ps ih =>
    intro db hmem
    simp only [deliver_posts, List.mem_append] at hmem
    rcases hmem with hmem | hmem
    · exact mark_dup_not_in_deliver_post send_ok feed_id now db p u hmem
    · exact ih _ hmem

theorem delivered_not_in_deliver_posts (send_ok : Post → Bool)
    (feed_id now : Nat) {u : String} :
    ∀ (ps : List Post) (db : DB), is_post_sent db u = true →
      Event.delivered u ∉ (deliver_posts send_ok feed_id now db ps).2 := by
  intro ps
  induction ps with
  | nil => intro db _ hmem; simp [deliver_posts] at hmem
  | cons p ps ih =>
    intro db h hmem
    simp only [deliver_posts, List.mem_append] at hmem
    rcases hmem with hmem | hmem
    · exact delivered_not_in_deliver_post h send_ok feed_id now p hmem
    · exact ih _ (sent_mono_deliver_post h send_ok feed_id now p) hmem

theorem sent_mono_process_feed {db : DB} {u : String}
    (h : is_post_sent db u = true) (fetch : String → Option (List Post))
    (send_ok : Post → Bool) (now : Nat) (feed : FeedRow) :
    is_post_sent (process_feed fetch send_ok now db feed).1 u = true := by
  unfold process_feed
  split
  · exact h
  · exact h
  · exact sent_mono_deliver_posts send_ok feed.id now _ _ h

theorem sent_uniq_process_feed {db : DB} (h : SentUniq db)
    (fetch : String → Option (List Post)) (send_ok : Post → Bool)
    (now : Nat) (feed : FeedRow) :
    SentUniq (process_feed fetch send_ok now db feed).1 := by
  unfold process_feed
  split
  · exact h
  · exact h
  · exact sent_uniq_deliver_posts send_ok feed.id now _ _ h

theorem mark_dup_not_in_process_feed (fetch : String → Option (List Post))
    (send_ok : Post → Bool) (now : Nat) (db : DB) (feed : FeedRow)
    (u : String) :
    Event.mark_dup u ∉ (process_feed fetch send_ok now db feed).2 := by
  unfold process_feed
  split
  · simp
  · simp
  · intro hmem
    simp only [List.mem_append, List.mem_singleton] at hmem
    rcases hmem with hmem | hmem
    · exact mark_dup_not_in_deliver_posts send_ok feed.id now u _ _ hmem
    · exact Event.noConfusion hmem

theorem delivered_not_in_process_feed {db : DB} {u : String}
    (h : is_post_sent db u = true) (fetch : String → Option (List Post))
    (send_ok : Post → Bool) (now : Nat) (feed : FeedRow) :
    Event.delivered u ∉ (process_feed fetch send_ok now db feed).2 := by
  unfold process_feed
  split
  · simp
  · simp
  · intro hmem
    simp only [List.mem_append, List.mem_singleton] at hmem
    rcases hmem with hmem | hmem
    · exact delivered_not_in_deliver_posts send_ok feed.id now _ _ h hmem
    · exact Event.noConfusion hmem

theorem sent_mono_process_feeds (fetch : String → Option (List Post))
    (send_ok : Post → Bool) (now : Nat) {u : String} :
    ∀ (fs : List FeedRow) (db : DB), is_post_sent db u = true →
      is_post_sent (process_feeds fetch send_ok now db fs).1 u = true := by
  intro fs
  induction fs with
  | nil => intro db h; exact h
  | cons f fs ih =>
    intro db h
    exact ih _ (sent_mono_process_feed h fetch send_ok now f)

theorem sent_uniq_process_feeds (fetch : String → Option (List Post))
    (send_ok : Post → Bool) (now : Nat) :
    ∀ (fs : List FeedRow) (db : DB), SentUniq db →
      SentUniq (process_feeds fetch send_ok now db fs).1 := by
  intro fs
  induction fs with
  | nil => intro db h; exact h
  | cons f fs ih =>
    intro db h
    exact ih _ (sent_uniq_process_feed h fetch send_ok now f)

theorem mark_dup_not_in_process_feeds (fetch : String → Option (List Post))
    (send_ok : Post → Bool) (now : Nat) (u : String) :
    ∀ (fs : List FeedRow) (db : DB),
      Event.mark_dup u ∉ (process_feeds fetch send_ok now db fs).2 := by
  intro fs
  induction fs with
  | nil => intro db hmem; simp [process_feeds] at hmem
  | cons f fs ih =>
    intro db hmem
    simp only [process_feeds, List.mem_append] at hmem
    rcases hmem with hmem | hmem
    · exact mark_dup_not_in_process_feed fetch send_ok now db f u hmem
    · exact ih _ hmem

theorem delivered_not_in_process_feeds (fetch : String → Option (List Post))
    (send_ok : Post → Bool) (now : Nat) {u : String} :
    ∀ (fs : List FeedRow) (db : DB), is_post_sent db u = true →
      Event.delivered u ∉ (process_feeds fetch send_ok now db fs).2 := by
  intro fs
  induction fs with
  | nil => intro db _ hmem; simp [process_feeds] at hmem
  | cons f fs ih =>
    intro db h hmem
    simp only [process_feeds, List.mem_append] at hmem
    rcases hmem with hmem | hmem
    · exact delivered_not_in_process_feed h fetch send_ok now f hmem
    · exact ih _ (sent_mono_process_feed h fetch send_ok now f) hmem

/-! ### Store operations preserve the ledger invariant -/

theorem add_feed_sent_posts (db : DB) (url name : String) :
    (add_feed db url name).sent_posts = db.sent_posts := by
  unfold add_feed; split <;> rfl

theorem sent_uniq_add_feed {db : DB} (h : SentUniq db) (url name : String) :
    SentUniq (add_feed db url name) := by
  unfold SentUniq
  rw [add_feed_sent_posts]
  exact h

theorem sent_uniq_remove_feed {db : DB} (h : SentUniq db) (url : String) :
    SentUniq (remove_feed db url).1 := by
  unfold remove_feed
  split
  · exact h
  · exact List.Nodup.sublist ((List.filter_sublist _).map _) h

theorem sent_uniq_run_cycle {db : DB} (h : SentUniq db)
    (fetch : String → Option (List Post)) (send_ok : Post → Bool)
    (now : Nat) :
    SentUniq (run_cycle fetch send_ok now db).1 :=
  sent_uniq_process_feeds fetch send_ok now _ _ h

theorem sent_uniq_apply_op {db : DB} (h : SentUniq db) (op : StoreOp) :
    SentUniq (apply_op db op) := by
  cases op with
  | cycle fetch send_ok now => exact sent_uniq_run_cycle h fetch send_ok now
  | add url name => exact sent_uniq_add_feed h url name
  | remove url => exact sent_uniq_remove_feed h url

theorem sent_uniq_run_ops :
    ∀ (ops : List StoreOp) (db : DB), SentUniq db →
      SentUniq (run_ops db ops) := by
  intro ops
  induction ops with
  | nil => intro db h; exact h
  | cons op ops ih => intro db h; exact ih _ (sent_uniq_apply_op h op)

/-! ### Helpers for add_feed and the formatter's escaping -/

theorem add_feed_of_exists {db : DB} {u : String}
    (h : db.feeds.any (fun f => f.url = u) = true) (n : String) :
    add_feed db u n = db := by
  simp [add_feed, h]

theorem add_feed_of_fresh {db : DB} {u : String}
    (h : db.feeds.any (fun f => f.url = u) = false) (n : String) :
    add_feed db u n =
      { db with feeds := db.feeds ++ [⟨db.next_feed_id, u, n, none⟩],
                next_feed_id := db.next_feed_id + 1 } := by
  simp [add_feed, h]

theorem mem_replace_char {c : Char} {r : List Char} {x : Char} :
    ∀ {l : List Char}, x ∈ replace_char c r l → x ∈ r ∨ (x ∈ l ∧ x ≠ c) := by
  intro l
  induction l with
  | nil => intro h; simp [replace_char] at h
  | cons y ys ih =>
    intro h
    simp only [replace_char, List.mem_append] at h
    rcases h with h | h
    · by_cases hy : y = c
      · rw [if_pos hy] at h
        exact Or.inl h
      · rw [if_neg hy] at h
        simp only [List.mem_singleton] at h
        refine Or.inr ⟨?_, ?_⟩
        · rw [h]; exact List.mem_cons_self y ys
        · rw [h]; exact hy
    · rcases ih h with h' | ⟨hmem, hne⟩
      · exact Or.inl h'
      · exact Or.inr ⟨List.mem_cons_of_mem y hmem, hne⟩

theorem escape_html_no_angle (s : String) :
    ∀ x ∈ (escape_html s).data, x ≠ '<' ∧ x ≠ '>' := by
  intro x hx
  have hx' : x ∈ replace_char '>' "&gt;".data
      (replace_char '<' "&lt;".data (replace_char '&' "&amp;".data s.data)) := hx
  rcases mem_replace_char hx' with h | ⟨h2, hgt⟩
  · exact (by decide : ∀ y ∈ "&gt;".data, y ≠ '<' ∧ y ≠ '>') x h
  · rcases mem_replace_char h2 with h | ⟨h3, hlt⟩
    · exact (by decide : ∀ y ∈ "&lt;".data, y ≠ '<' ∧ y ≠ '>') x h
    · exact ⟨hlt, hgt⟩

/-! ### The claims -/

/-- C1: starting from the freshly initialized store, after any number of
engine cycles and store operations (feed adds and removes interleaved with
cycles), every `post_url` has at most one `sent_posts` row — uniqueness is
global across all feeds — and no cycle run from such a state ever calls
`mark_post_sent` for a url that `is_post_sent` reported as already sent in
the same pass (no `mark_dup` event is ever emitted). -/
theorem c1_sent_post_uniqueness (ops : List StoreOp)
    (fetch : String → Option (List Post)) (send_ok : Post → Bool)
    (now : Nat) (u : String) :
    SentUniq (run_ops init_db ops) ∧
    Event.mark_dup u ∉ (run_cycle fetch send_ok now (run_ops init_db ops)).2 := by
  constructor
  · exact sent_uniq_run_ops ops init_db (by simp [SentUniq, init_db])
  · exact mark_dup_not_in_process_feeds fetch send_ok now u _ _

/-- C2 counterexample: a fetch that SUCCEEDS but returns an empty entry
list (`fetch url = some []`) leaves the feed's `last_check` untouched,
because `if not posts: continue` treats an empty list like a failure. The
claim says a successful fetch always updates `last_check`, so it fails at
this input: the whole store is unchanged after the cycle. -/
theorem c2_counterexample :
    (fun _ : String => some ([] : List Post)) "https://feed.example/rss" =
      some [] ∧
    (run_cycle (fun _ => some []) (fun _ => true) 7
        ⟨[⟨1, "https://feed.example/rss", "Example", none⟩], [], 2⟩).1 =
      ⟨[⟨1, "https://feed.example/rss", "Example", none⟩], [], 2⟩ := by
  constructor
  · rfl
  · rfl

/-- C2 amended: within a cycle, a feed's `last_check` is set to the cycle's
timestamp exactly when the fetch succeeds with a NON-EMPTY entry list; it
is left unchanged both when the fetch fails and when it succeeds with zero
entries (`if not posts: continue` conflates the two), and a fetch failure
leaves the whole feed table unchanged and the engine moves on. -/
theorem c2_last_check_on_nonempty_fetch (fetch : String → Option (List Post))
    (send_ok : Post → Bool) (now : Nat) (db : DB) (feed : FeedRow) :
    (process_feed fetch send_ok now db feed).1.feeds =
      match fetch feed.url with
      | none => db.feeds
      | some [] => db.feeds
      | some (_ :: _) =>
        db.feeds.map (fun f =>
          if f.id = feed.id then { f with last_check := some now } else f) := by
  rcases hfetch : fetch feed.url with _ | ps
  · simp [process_feed, hfetch]
  · cases ps with
    | nil => simp [process_feed, hfetch]
    | cons p ps =>
      simp only [process_feed, hfetch]
      unfold update_feed_check_time
      rw [deliver_posts_feeds]

/-- C3 counterexample: one feed, one fresh post, and a sink that fails the
send. The cycle's trace is a failed delivery followed by the feed's
`update_feed_check_time`, with NO pause event: the `asyncio.sleep(2)` sits
inside the `try` after the successful send, so a failed delivery attempt
is not followed by the 2-unit pause the claim requires. -/
theorem c3_counterexample :
    (run_cycle (fun _ => some [⟨"T", "https://p.example/1", "D", "2024", []⟩])
        (fun _ => false) 7 ⟨[⟨1, "https://feed.example/rss", "F", none⟩], [], 2⟩).2 =
      [Event.delivery_failed "https://p.example/1", Event.checked 1] ∧
    Event.paused 2 ∉
      (run_cycle (fun _ => some [⟨"T", "https://p.example/1", "D", "2024", []⟩])
        (fun _ => false) 7 ⟨[⟨1, "https://feed.example/rss", "F", none⟩], [], 2⟩).2 := by
  constructor
  · rfl
  · decide

/-- C3 amended: in the engine's per-post step, the 2-unit pause happens
exactly after a SUCCESSFUL delivery (send succeeded and the post was
marked sent); a failed delivery attempt is logged and the engine moves to
the next post without pausing, and no pause follows a post skipped as
already sent. -/
theorem c3_pause_only_after_successful_delivery (send_ok : Post → Bool)
    (feed_id now : Nat) (db : DB) (p : Post) :
    (deliver_post send_ok feed_id now db p).2 =
      if is_post_sent db p.link then [Event.skipped p.link]
      else if send_ok p then [Event.delivered p.link, Event.paused 2]
      else [Event.delivery_failed p.link] := by
  rw [deliver_post_eq]
  split_ifs <;> rfl

/-- C4: within one feed's post sequence, if the sink fails for every post
carrying P's link but succeeds for a post Q of the sequence, the per-feed
loop does not abort: after the feed is processed Q's link is marked sent,
P's link is not marked, and P still passes the `is_post_sent` filter (it
is delivery-eligible again next cycle). -/
theorem c4_failed_delivery_retried (fetch : String → Option (List Post))
    (send_ok : Post → Bool) (now : Nat) (db : DB) (feed : FeedRow)
    (posts : List Post) (P Q : Post)
    (hfetch : fetch feed.url = some posts)
    (hQ : Q ∈ posts) (hQok : send_ok Q = true)
    (hPfail : ∀ p ∈ posts, p.link = P.link → send_ok p = false)
    (hPnew : is_post_sent db P.link = false) :
    is_post_sent (process_feed fetch send_ok now db feed).1 Q.link = true ∧
    is_post_sent (process_feed fetch send_ok now db feed).1 P.link = false := by
  cases posts with
  | nil => cases hQ
  | cons p ps =>
    unfold process_feed
    rw [hfetch]
    constructor
    · exact sent_marked_deliver_posts send_ok feed.id now hQok _ _ hQ
    · exact sent_not_marked_deliver_posts send_ok feed.id now _ _ hPnew hPfail

/-- C4 witness: a concrete feed with posts P (link "https://p", send
fails) then Q (link "https://q", send succeeds): Q ends up marked, P does
not. -/
theorem c4_witness :
    is_post_sent
      (process_feed
        (fun _ => some [⟨"P", "https://p", "", "2024", []⟩,
                        ⟨"Q", "https://q", "", "2024", []⟩])
        (fun q => q.link == "https://q") 7
        ⟨[⟨1, "https://feed.example/rss", "F", none⟩], [], 2⟩
        ⟨1, "https://feed.example/rss", "F", none⟩).1 "https://q" = true ∧
    is_post_sent
      (process_feed
        (fun _ => some [⟨"P", "https://p", "", "2024", []⟩,
                        ⟨"Q", "https://q", "", "2024", []⟩])
        (fun q => q.link == "https://q") 7
        ⟨[⟨1, "https://feed.example/rss", "F", none⟩], [], 2⟩
        ⟨1, "https://feed.example/rss", "F", none⟩).1 "https://p" = false :=
  c4_failed_delivery_retried
    (fun _ => some [⟨"P", "https://p", "", "2024", []⟩,
                    ⟨"Q", "https://q", "", "2024", []⟩])
    (fun q => q.link == "https://q") 7
    ⟨[⟨1, "https://feed.example/rss", "F", none⟩], [], 2⟩
    ⟨1, "https://feed.example/rss", "F", none⟩
    [⟨"P", "https://p", "", "2024", []⟩, ⟨"Q", "https://q", "", "2024", []⟩]
    ⟨"P", "https://p", "", "2024", []⟩ ⟨"Q", "https://q", "", "2024", []⟩
    rfl (by decide) rfl (by decide) rfl

/-- C5 counterexample: an entry whose explicit tag list carries the term
"lean" twice produces a post whose tag list still carries it twice — the
code only filters empty strings (`[tag for tag in tags if tag]`) and never
deduplicates, so "duplicate tags are dropped" fails at this input. -/
theorem c5_counterexample :
    (fetch_feed_entry "2024" (fun s => s)
        ⟨none, none, none, none, some [some "lean", some "lean"], none⟩).tags =
      ["lean", "lean"] ∧
    ¬ (fetch_feed_entry "2024" (fun s => s)
        ⟨none, none, none, none, some [some "lean", some "lean"], none⟩).tags.Nodup := by
  constructor
  · rfl
  · decide

/-- C5 amended: a post's tags come from the entry's explicit tag list
(each tag's `term`, defaulting to the empty string) when the `tags` key is
present, otherwise from its category list; empty-string tags are dropped,
but duplicate tags are RETAINED (no deduplication is performed). -/
theorem c5_tags_from_tags_or_categories (now : String)
    (get_text : String → String) (e : FeedEntry) :
    (fetch_feed_entry now get_text e).tags =
      (match e.tags with
       | some ts => ts.map (fun t : Option String => t.getD "")
       | none =>
         match e.categories with
         | some cs => cs
         | none => []).filter (fun t => t ≠ "") ∧
    "" ∉ (fetch_feed_entry now get_text e).tags := by
  have htags : (fetch_feed_entry now get_text e).tags =
      (match e.tags with
       | some ts => ts.map (fun t : Option String => t.getD "")
       | none =>
         match e.categories with
         | some cs => cs
         | none => []).filter (fun t => t ≠ "") := by
    simp only [fetch_feed_entry]
    split <;> rfl
  refine ⟨htags, ?_⟩
  rw [htags]
  intro hmem
  rw [List.mem_filter] at hmem
  simp at hmem

/-- C6: the stored description is the markup-stripped plain text of the
entry's raw description, truncated to its first 500 characters plus an
ellipsis marker when that plain text is longer than 500 characters, and
unchanged when it is at most 500 characters. (`get_text "" = ""` states
that stripping markup from an empty description yields empty text, which
matches BeautifulSoup; the code short-circuits that case.) -/
theorem c6_description_truncation (now : String) (get_text : String → String)
    (hempty : get_text "" = "") (e : FeedEntry) :
    (fetch_feed_entry now get_text e).description =
      if (get_text (e.description.getD "")).length > 500 then
        (get_text (e.description.getD "")).take 500 ++ "..."
      else get_text (e.description.getD "") := by
  simp only [fetch_feed_entry]
  split
  · rfl
  · rename_i h
    have h' : e.description.getD "" = "" := by
      by_contra hne
      exact h hne
    simp [h', hempty]

/-- C6 witness: a 5-character plain-text description is stored
unchanged. -/
theorem c6_witness :
    (fetch_feed_entry "2024" (fun s => s)
        ⟨some "T", some "https://l", some "hello", none, none, none⟩).description =
      "hello" := by
  rw [c6_description_truncation "2024" (fun s => s) rfl
      ⟨some "T", some "https://l", some "hello", none, none, none⟩]
  rfl

/-- C7: `remove_feed` returns `false` and raises nothing when no feed has
the url; when the lookup finds a feed it returns `true`, deletes that
feed's row, deletes every `sent_posts` row referencing its id (so after a
`true` return no SentPost row references the removed feed's id), and
deletes nothing else — the whole removal is one commit. -/
theorem c7_remove_feed_cascade (db : DB) (url : String) :
    ((∀ f ∈ db.feeds, f.url ≠ url) → remove_feed db url = (db, false)) ∧
    (∀ f, db.feeds.find? (fun g => g.url = url) = some f →
      (remove_feed db url).2 = true ∧
      (∀ g ∈ (remove_feed db url).1.feeds, g.id ≠ f.id) ∧
      (∀ sp ∈ (remove_feed db url).1.sent_posts, sp.feed_id ≠ f.id) ∧
      (∀ sp ∈ db.sent_posts, sp.feed_id ≠ f.id →
        sp ∈ (remove_feed db url).1.sent_posts)) := by
  constructor
  · intro h
    unfold remove_feed
    have hnone : db.feeds.find? (fun g => g.url = url) = none := by
      rw [List.find?_eq_none]
      intro g hg
      simp [h g hg]
    rw [hnone]
  · intro f hf
    unfold remove_feed
    rw [hf]
    refine ⟨rfl, ?_, ?_, ?_⟩
    · intro g hg
      rw [List.mem_filter] at hg
      simpa using hg.2
    · intro sp hsp
      rw [List.mem_filter] at hsp
      simpa using hsp.2
    · intro sp hsp hne
      rw [List.mem_filter]
      exact ⟨hsp, by simpa using hne⟩

/-- C8: adding a url that is not yet configured and then adding the same
url again with a different name is silent and leaves the store exactly as
after the first add — one feed with that url, whose stored name is the
FIRST name (`INSERT OR IGNORE` does not touch the existing row). -/
theorem c8_add_feed_idempotent (db : DB) (u n1 n2 : String)
    (h : ∀ f ∈ db.feeds, f.url ≠ u) :
    add_feed (add_feed db u n1) u n2 = add_feed db u n1 ∧
    ((add_feed (add_feed db u n1) u n2).feeds.filter
        (fun f => f.url = u)).map (fun f => f.name) = [n1] := by
  have hnone : db.feeds.any (fun f => f.url = u) = false := by
    rw [List.any_eq_false]
    intro f hf
    simp [h f hf]
  rw [add_feed_of_fresh hnone n1]
  have hany : (({ db with
      feeds := db.feeds ++ [⟨db.next_feed_id, u, n1, none⟩],
      next_feed_id := db.next_feed_id + 1 } : DB)).feeds.any
      (fun f => f.url = u) = true := by
    simp [List.any_append]
  rw [add_feed_of_exists hany n2]
  refine ⟨rfl, ?_⟩
  have hfilter : db.feeds.filter (fun f => decide (f.url = u)) = [] := by
    rw [List.filter_eq_nil_iff]
    intro f hf
    simp [h f hf]
  simp only [List.filter_append, List.map_append, hfilter]
  simp

/-- C8 witness: on the empty store, adding url "https://a" as "n1" and
again as "n2" leaves one feed named "n1". -/
theorem c8_witness :
    add_feed (add_feed init_db "https://a" "n1") "https://a" "n2" =
      add_feed init_db "https://a" "n1" ∧
    ((add_feed (add_feed init_db "https://a" "n1") "https://a" "n2").feeds.filter
        (fun f => f.url = "https://a")).map (fun f => f.name) = ["n1"] :=
  c8_add_feed_idempotent init_db "https://a" "n1" "n2" (by decide)

/-- C9: an entry with an absent link field is normalized to the empty-string
link, and because deduplication keys on the link globally, once the empty
link is recorded in `sent_posts` it stays recorded through any further
cycle and no cycle ever delivers a post whose link is the empty string
again — link-less posts from every feed are filtered out as already
sent. -/
theorem c9_absent_link_globally_deduped (now : String)
    (get_text : String → String) (e : FeedEntry) (he : e.link = none)
    (fetch : String → Option (List Post)) (send_ok : Post → Bool)
    (t : Nat) (db : DB) (hsent : is_post_sent db "" = true) :
    (fetch_feed_entry now get_text e).link = "" ∧
    is_post_sent (run_cycle fetch send_ok t db).1 "" = true ∧
    Event.delivered "" ∉ (run_cycle fetch send_ok t db).2 := by
  refine ⟨?_, ?_, ?_⟩
  · simp only [fetch_feed_entry]
    split <;> simp [he]
  · exact sent_mono_process_feeds fetch send_ok t _ _ hsent
  · exact delivered_not_in_process_feeds fetch send_ok t _ _ hsent

/-- C9 witness: a fully empty entry gets link ""; with "" already in the
ledger, a cycle over an empty feed list keeps it there and delivers
nothing. -/
theorem c9_witness :
    (fetch_feed_entry "2024" (fun s => s)
        ⟨none, none, none, none, none, none⟩).link = "" ∧
    is_post_sent (run_cycle (fun _ => none) (fun _ => true) 7
        ⟨[], [⟨1, "", 0⟩], 2⟩).1 "" = true ∧
    Event.delivered "" ∉ (run_cycle (fun _ => none) (fun _ => true) 7
        ⟨[], [⟨1, "", 0⟩], 2⟩).2 :=
  c9_absent_link_globally_deduped "2024" (fun s => s)
    ⟨none, none, none, none, none, none⟩ rfl
    (fun _ => none) (fun _ => true) 7 ⟨[], [⟨1, "", 0⟩], 2⟩ rfl

/-- C10: the formatted message ends with the italic attribution line
carrying `feed_name` verbatim — markup-significant characters in the feed
name are NOT escaped — whereas the title and the description are embedded
through the escaping function, whose output never contains a raw angle
bracket. -/
theorem c10_feed_name_not_escaped (post : Post) (feed_name : String) :
    (∃ pre : String, format_telegram_message post feed_name =
      pre ++ ("<i>Feed: " ++ feed_name ++ "</i>\n")) ∧
    (∀ c ∈ (escape_html post.title).data, c ≠ '<' ∧ c ≠ '>') ∧
    (∀ c ∈ (escape_html post.description).data, c ≠ '<' ∧ c ≠ '>') := by
  refine ⟨⟨escape_html post.title ++ "\n\n<a href=\"" ++ escape_quotes post.link ++
      "\">🔗 Link</a>\n\n" ++ escape_html post.description ++ "\n\n", ?_⟩,
    escape_html_no_angle post.title, escape_html_no_angle post.description⟩
  unfold format_telegram_message
  apply String.ext
  simp [String.data_append, List.append_assoc]
